import Mathlib

/-!
Verification of the ADR repository core: the interaction-graph aggregation
engine (`onto.py`) and the token-budgeted context assembler
(`context_med.py`), shallowly embedded in Lean 4.

Source adapters (DBpedia/Wikidata/Google KG queries) and the tiktoken
tokenizer are external collaborators; they are modelled as parameters:
a source is a function that either returns a set of neighbor names or
fails with an exception message, and a tokenizer is an encode/decode pair
on token sequences.
-/

set_option maxRecDepth 200000

namespace ADR

/-- A source adapter: `query_dbpedia` / `query_wikidata` / `query_google_kg`
in `onto.py`. A call either returns a set of related-entity names or raises
(modelled as `Except.error` with the exception message). -/
abbrev Source := String → Except String (Finset String)

/-- `query_source` from `onto.py` (inner function of `get_interaction_report`):
calls the source and downgrades any exception to the empty set. -/
def query_source (f : Source) (drug : String) : Finset String :=
  match f drug with
  | Except.ok s => s
  | Except.error _ => ∅

/-- The union `set().union(*[query_source(f, drug) for f in sources])`
from `onto.py` lines 34-35. -/
def aggregate (sources : List Source) (drug : String) : Finset String :=
  (sources.map (fun f => query_source f drug)).foldr (· ∪ ·) ∅

/-- The dictionary returned by `get_interaction_report` in `onto.py`. -/
structure Report where
  drug_a : String
  drug_b : String
  direct : Bool
  common : Finset String
  neighbors_a : Finset String
  neighbors_b : Finset String
deriving DecidableEq

/-- `get_interaction_report` from `onto.py` lines 25-44. The list of
sources is hard-coded in the Python file to the three external query
functions; since those are network calls they are passed as parameters. -/
def get_interaction_report (sources : List Source) (drug_a drug_b : String) :
    Report :=
  let neighbors_a := aggregate sources drug_a
  let neighbors_b := aggregate sources drug_b
  { drug_a := drug_a
    drug_b := drug_b
    direct := decide (drug_b ∈ neighbors_a) || decide (drug_a ∈ neighbors_b)
    common := neighbors_a ∩ neighbors_b
    neighbors_a := neighbors_a
    neighbors_b := neighbors_b }

/-- The tiktoken tokenizer used by `truncate_context` in `context_med.py`
(`tiktoken.get_encoding("cl100k_base")`): an external collaborator exposing
`encode : str -> list[int]` and `decode : list[int] -> str`. -/
structure Tokenizer where
  encode : String → List Nat
  decode : List Nat → String

/-- `count_tokens` from `context_med.py` lines 137-138:
`len(tokenizer.encode(text))`. -/
def count_tokens (tk : Tokenizer) (text : String) : Nat :=
  (tk.encode text).length

/-- The tokenizer contract of a truncating encode/decode round trip:
decoding a prefix of an encoding and re-encoding the result gives back that
prefix. This is the property §6 of the design relies on for token-granular
truncation. -/
def Tokenizer.PrefixRoundTrip (tk : Tokenizer) : Prop :=
  ∀ (s : String) (n : Nat),
    tk.encode (tk.decode ((tk.encode s).take n)) = (tk.encode s).take n

/-- The tokenizer contract of a lossless full round trip:
`decode(encode(x)) = x`. cl100k_base is lossless on valid text. -/
def Tokenizer.Lossless (tk : Tokenizer) : Prop :=
  ∀ s : String, tk.decode (tk.encode s) = s

/-- A value stored in the context dictionary built by `get_context`:
either list-like (a list of stringified items, joined with newlines when
serialized) or scalar (stringified directly). The PubChem dict and the
drug-name string both pass through `str(value)` and are scalar here; the
PubMed/arXiv article lists are list-like, their items already stringified. -/
inductive Value where
  | scalar (text : String)
  | strList (items : List String)
deriving DecidableEq

/-- The serialization in `truncate_context` lines 142-146:
`"\n".join(str(item) for item in value)` for lists, `str(value)` otherwise. -/
def serialize : Value → String
  | Value.scalar text => text
  | Value.strList items => String.intercalate "\n" items

/-- A context dictionary: an insertion-ordered mapping from section label to
value, as built by `get_context` (`{"Drug Name": ..., "PubChem Data": ...}`). -/
abbrev Context := List (String × Value)

/-- `total_tokens` accumulated in `truncate_context` lines 140-152: the sum
of the token counts of every section's serialized value. -/
def total_tokens (tk : Tokenizer) (context : Context) : Nat :=
  (context.map (fun kv => count_tokens tk (serialize kv.2))).sum

/-- `truncate_text` from `context_med.py` lines 174-189. -/
def truncate_text (tk : Tokenizer) (text : String) (max_tokens : Nat) :
    String :=
  let tokens := tk.encode text
  let tokens := if tokens.length > max_tokens then tokens.take max_tokens
    else tokens
  tk.decode tokens

/-- The hard-coded `section_order` list from `truncate_context` line 157. -/
def section_order : List String :=
  ["PubChem Data", "Wikipedia Summary", "PubMed Articles", "arXiv Articles"]

/-- The `for section in section_order` loop of `truncate_context` lines
161-170: a label absent from the context is skipped; a section present in
the context is included whole when its token count fits the remaining
budget (decrementing the budget), and otherwise it is truncated to the
remaining budget and the loop breaks. -/
def trunc_loop (tk : Tokenizer) (context : Context) :
    List String → Nat → Context
  | [], _ => []
  | label :: rest, remaining =>
    match context.lookup label with
    | none => trunc_loop tk context rest remaining
    | some v =>
      let tokens := count_tokens tk (serialize v)
      if tokens ≤ remaining then
        (label, v) :: trunc_loop tk context rest (remaining - tokens)
      else
        [(label, Value.scalar (truncate_text tk (serialize v) remaining))]

/-- `truncate_context` from `context_med.py` lines 125-172: if the total
token count fits `max_tokens`, the original context is returned unchanged;
otherwise the hard-coded section order is walked with the cutoff loop. -/
def truncate_context (tk : Tokenizer) (context : Context) (max_tokens : Nat) :
    Context :=
  if total_tokens tk context ≤ max_tokens then context
  else trunc_loop tk context section_order max_tokens

/-- Spec-side restatement of the cutoff policy of §4.3 step 3, restricted —
as the code actually does — to the hard-coded label order: walk the labels,
skip ones absent from the context, include a fitting section whole while
decrementing the budget, and on the first section that does not fit emit
the decoded `remaining`-token tail-truncated prefix of its token sequence
and stop, dropping every later label. Written from the spec's words (direct
`decode (take remaining (encode s))`), to be compared with `truncate_context`
which routes through `truncate_text`. -/
def cutoff_policy (tk : Tokenizer) (context : Context) :
    List String → Nat → Context
  | [], _ => []
  | label :: rest, remaining =>
    match context.lookup label with
    | none => cutoff_policy tk context rest remaining
    | some v =>
      if (tk.encode (serialize v)).length ≤ remaining then
        (label, v) :: cutoff_policy tk context rest
          (remaining - (tk.encode (serialize v)).length)
      else
        [(label, Value.scalar (tk.decode ((tk.encode (serialize v)).take
          remaining)))]

/-- A concrete tokenizer for witnesses: one token per character. It is
lossless and satisfies the truncating round-trip contract, like cl100k_base
on its own outputs. -/
def charTok : Tokenizer where
  encode s := s.data.map Char.toNat
  decode l := String.mk (l.map Char.ofNat)

/-- A 500-token (under `charTok`) section body. -/
def s500 : String := String.mk (List.replicate 500 'a')

/-- An 800-token (under `charTok`) section body. -/
def s800 : String := String.mk (List.replicate 800 'a')

/-- A 300-token (under `charTok`) section body. -/
def s300 : String := String.mk (List.replicate 300 'a')

/-- The context of the spec's §8 concrete scenario, with the labels the
spec uses: Summary (500 tokens), Articles (800), Extra (300). -/
def scenario_context : Context :=
  [("Summary", Value.scalar s500), ("Articles", Value.scalar s800),
   ("Extra", Value.scalar s300)]

/-- The §8 scenario relabelled onto the labels `truncate_context` actually
iterates: PubChem Data (500 tokens), Wikipedia Summary (800),
PubMed Articles (300). -/
def scenario_relabelled : Context :=
  [("PubChem Data", Value.scalar s500),
   ("Wikipedia Summary", Value.scalar s800),
   ("PubMed Articles", Value.scalar s300)]

/-- A context whose first, highest-priority section is the `"Drug Name"`
entry `get_context` always inserts (1 token under `charTok`), followed by a
10-token PubChem section. -/
def drugname_context : Context :=
  [("Drug Name", Value.scalar "a"),
   ("PubChem Data", Value.scalar "aaaaaaaaaa")]

/-- A small one-section context for witnesses (6 tokens under `charTok`). -/
def small_context : Context := [("PubChem Data", Value.scalar "abcdef")]

/-- A source that always succeeds with the singleton set `{"x"}`. -/
def srcOkX : Source := fun _ => Except.ok {"x"}

/-- A source that always raises. -/
def srcFail : Source := fun _ => Except.error "boom"

lemma mem_aggregate (sources : List Source) (drug : String) (x : String) :
    x ∈ aggregate sources drug ↔ ∃ f ∈ sources, x ∈ query_source f drug := by
  induction sources with
  | nil => simp [aggregate]
  | cons f rest ih =>
    simp only [aggregate, List.map_cons, List.foldr_cons, Finset.mem_union]
    rw [show (rest.map (fun f => query_source f drug)).foldr (· ∪ ·) ∅
        = aggregate rest drug from rfl]
    simp [ih]

lemma aggregate_append (s₁ s₂ : List Source) (drug : String) :
    aggregate (s₁ ++ s₂) drug = aggregate s₁ drug ∪ aggregate s₂ drug := by
  ext x
  simp [mem_aggregate, or_and_right, exists_or]

lemma query_source_error (f : Source) (drug : String) (e : String)
    (h : f drug = Except.error e) : query_source f drug = ∅ := by
  simp [query_source, h]

lemma aggregate_all_fail (sources : List Source) (d : String)
    (h : ∀ f ∈ sources, ∃ e, f d = Except.error e) :
    aggregate sources d = ∅ := by
  ext x
  simp only [mem_aggregate, Finset.not_mem_empty, iff_false, not_exists]
  intro f hf
  obtain ⟨e, he⟩ := h f hf.1
  rw [query_source_error f d e he] at hf
  exact absurd hf.2 (Finset.not_mem_empty x)

lemma charTok_lossless : charTok.Lossless := by
  intro s
  cases s with
  | mk data =>
    simp [charTok, Tokenizer.Lossless, List.map_map, Function.comp_def,
      Char.ofNat_toNat]

lemma charTok_prefixRoundTrip : charTok.PrefixRoundTrip := by
  intro s n
  cases s with
  | mk data =>
    simp [charTok, ← List.map_take, List.map_map, Function.comp_def,
      Char.ofNat_toNat]

lemma count_tokens_truncate_text (tk : Tokenizer)
    (h_rt : tk.PrefixRoundTrip) (s : String) (m : Nat)
    (h : m < count_tokens tk s) :
    count_tokens tk (truncate_text tk s m) = m := by
  unfold count_tokens at h ⊢
  simp only [truncate_text]
  rw [if_pos (show (tk.encode s).length > m from h), h_rt s m,
    List.length_take]
  omega

lemma trunc_loop_total_le (tk : Tokenizer) (h_rt : tk.PrefixRoundTrip)
    (context : Context) :
    ∀ (labels : List String) (remaining : Nat),
      total_tokens tk (trunc_loop tk context labels remaining) ≤ remaining := by
  intro labels
  induction labels with
  | nil => intro remaining; simp [trunc_loop, total_tokens]
  | cons label rest ih =>
    intro remaining
    cases hl : context.lookup label with
    | none => simpa [trunc_loop, hl] using ih remaining
    | some v =>
      by_cases hle : count_tokens tk (serialize v) ≤ remaining
      · have hrest := ih (remaining - count_tokens tk (serialize v))
        simp only [trunc_loop, hl, if_pos hle, total_tokens, List.map_cons,
          List.sum_cons] at hrest ⊢
        omega
      · push_neg at hle
        simp only [trunc_loop, hl, if_neg (not_le.mpr hle), total_tokens,
          List.map_cons, List.map_nil, List.sum_cons, List.sum_nil]
        rw [show serialize (Value.scalar (truncate_text tk (serialize v)
          remaining)) = truncate_text tk (serialize v) remaining from rfl]
        rw [count_tokens_truncate_text tk h_rt _ remaining hle]
        omega

lemma trunc_loop_keys (tk : Tokenizer) (context : Context) :
    ∀ (labels : List String) (remaining : Nat) (kv : String × Value),
      kv ∈ trunc_loop tk context labels remaining → kv.1 ∈ labels := by
  intro labels
  induction labels with
  | nil => intro r kv h; simp [trunc_loop] at h
  | cons label rest ih =>
    intro r kv h
    cases hl : context.lookup label with
    | none =>
      simp only [trunc_loop, hl] at h
      exact List.mem_cons_of_mem _ (ih r kv h)
    | some v =>
      by_cases hle : count_tokens tk (serialize v) ≤ r
      · simp only [trunc_loop, hl, if_pos hle, List.mem_cons] at h
        rcases h with h | h
        · simp [h]
        · exact List.mem_cons_of_mem _ (ih _ kv h)
      · simp only [trunc_loop, hl, if_neg hle, List.mem_singleton] at h
        simp [h]

lemma trunc_loop_eq_cutoff (tk : Tokenizer) (context : Context) :
    ∀ (labels : List String) (remaining : Nat),
      trunc_loop tk context labels remaining =
        cutoff_policy tk context labels remaining := by
  intro labels
  induction labels with
  | nil => intro r; rfl
  | cons label rest ih =>
    intro r
    cases hl : context.lookup label with
    | none => simp only [trunc_loop, cutoff_policy, hl]; exact ih r
    | some v =>
      by_cases hle : (tk.encode (serialize v)).length ≤ r
      · simp only [trunc_loop, cutoff_policy, hl, count_tokens, if_pos hle]
        exact congrArg _ (ih _)
      · simp only [trunc_loop, cutoff_policy, hl, count_tokens, if_neg hle,
          truncate_text]
        rw [if_pos (show (tk.encode (serialize v)).length > r from
          not_le.mp hle)]

/-- C1: for every context mapping and every positive token budget, the
bundle returned by `truncate_context` satisfies the budget invariant: the
sum of the token counts of all returned sections is at most `max_tokens`
(for any tokenizer satisfying the §6 truncating round-trip contract). -/
theorem truncate_context_budget_invariant (tk : Tokenizer)
    (h_rt : tk.PrefixRoundTrip) (context : Context) (max_tokens : Nat)
    (hpos : 0 < max_tokens) :
    total_tokens tk (truncate_context tk context max_tokens) ≤ max_tokens := by
  unfold truncate_context
  split
  · assumption
  · exact trunc_loop_total_le tk h_rt context section_order max_tokens

/-- Witness for C1 at the character tokenizer, a concrete over-budget
context and budget 10. -/
theorem truncate_context_budget_invariant_witness :
    0 < 10 ∧
    total_tokens charTok (truncate_context charTok
      [("PubChem Data", Value.scalar "abcdefabcdefabcdef")] 10) ≤ 10 :=
  ⟨by decide,
   truncate_context_budget_invariant charTok charTok_prefixRoundTrip
     [("PubChem Data", Value.scalar "abcdefabcdefabcdef")] 10 (by decide)⟩

/-- C2: the report built by `get_interaction_report` satisfies
`common = neighbors_a ∩ neighbors_b`, `direct` is true iff `drug_b` is a
member of `neighbors_a` or `drug_a` is a member of `neighbors_b`, and
`direct` is false whenever both neighbor sets are empty. -/
theorem interaction_report_invariants (sources : List Source)
    (a b : String) :
    (get_interaction_report sources a b).common =
      (get_interaction_report sources a b).neighbors_a ∩
        (get_interaction_report sources a b).neighbors_b ∧
    ((get_interaction_report sources a b).direct = true ↔
      b ∈ (get_interaction_report sources a b).neighbors_a ∨
        a ∈ (get_interaction_report sources a b).neighbors_b) ∧
    ((get_interaction_report sources a b).neighbors_a = ∅ →
      (get_interaction_report sources a b).neighbors_b = ∅ →
      (get_interaction_report sources a b).direct = false) := by
  refine ⟨rfl, ?_, ?_⟩
  · simp [get_interaction_report]
  · intro ha hb
    simp only [get_interaction_report] at ha hb ⊢
    rw [ha, hb]
    simp

/-- Witness for C2 at a concrete source list and subject pair. -/
theorem interaction_report_invariants_witness :
    (get_interaction_report [srcOkX] "p" "q").common =
      (get_interaction_report [srcOkX] "p" "q").neighbors_a ∩
        (get_interaction_report [srcOkX] "p" "q").neighbors_b :=
  (interaction_report_invariants [srcOkX] "p" "q").1

/-- C3 counterexample: the claim says every section whose token count fits
the remaining budget is included whole, but on a context whose first
(highest-priority) section is `"Drug Name"` (1 token, fitting the budget of
5) the over-budget path of `truncate_context` drops it: only the hard-coded
labels survive, so the output is the 5-token truncation of
`"PubChem Data"` alone. -/
theorem strict_cutoff_counterexample :
    5 < total_tokens charTok drugname_context ∧
    count_tokens charTok (serialize (Value.scalar "a")) ≤ 5 ∧
    truncate_context charTok drugname_context 5 =
      [("PubChem Data", Value.scalar "aaaaa")] ∧
    "Drug Name" ∉ (truncate_context charTok drugname_context 5).map
      Prod.fst := by decide

/-- C3 amended: in the over-budget case `truncate_context` applies the
strict cutoff policy only over the four hard-coded labels in their fixed
order (dropping every other section, such as `"Drug Name"`): each listed
section that fits the remaining budget is included whole with the budget
decremented, the first listed section that does not fit is truncated at the
tail of its token sequence, decoded and included, and everything after it
is dropped; the truncated text measures exactly the remaining token count
(for a tokenizer satisfying the §6 round-trip contract). -/
theorem strict_cutoff_amended (tk : Tokenizer) (context : Context)
    (max_tokens : Nat) (h : max_tokens < total_tokens tk context)
    (h_rt : tk.PrefixRoundTrip) :
    truncate_context tk context max_tokens =
      cutoff_policy tk context section_order max_tokens ∧
    (∀ (s : String) (r : Nat), r < count_tokens tk s →
      count_tokens tk (truncate_text tk s r) = r) := by
  constructor
  · unfold truncate_context
    rw [if_neg (by omega)]
    exact trunc_loop_eq_cutoff tk context section_order max_tokens
  · intro s r hr
    exact count_tokens_truncate_text tk h_rt s r hr

/-- Witness for C3 amended at the character tokenizer and the concrete
Drug Name context with budget 5. -/
theorem strict_cutoff_amended_witness :
    truncate_context charTok drugname_context 5 =
      cutoff_policy charTok drugname_context section_order 5 :=
  (strict_cutoff_amended charTok drugname_context 5 (by decide)
    charTok_prefixRoundTrip).1

/-- C4: adapter failures never propagate: a raising source is downgraded to
the empty set by `query_source`, removing a failing source from the list
leaves the aggregate unchanged (isolation), and when every source fails for
every subject the report is still returned normally, with empty neighbor
sets, empty intersection and `direct = false`. -/
theorem aggregate_failure_isolation (sources : List Source) (a b : String) :
    (∀ f ∈ sources, ∀ e, f a = Except.error e → query_source f a = ∅) ∧
    (∀ (s₁ s₂ : List Source) (f : Source) (e : String),
      f a = Except.error e →
      aggregate (s₁ ++ f :: s₂) a = aggregate (s₁ ++ s₂) a) ∧
    ((∀ f ∈ sources, ∀ d, ∃ e, f d = Except.error e) →
      get_interaction_report sources a b =
        { drug_a := a, drug_b := b, direct := false, common := ∅,
          neighbors_a := ∅, neighbors_b := ∅ }) := by
  refine ⟨fun f _ e h => query_source_error f a e h, ?_, ?_⟩
  · intro s₁ s₂ f e hf
    rw [show s₁ ++ f :: s₂ = s₁ ++ [f] ++ s₂ by simp, aggregate_append,
      aggregate_append, aggregate_append]
    rw [show aggregate [f] a = query_source f a by
      simp [aggregate]]
    rw [query_source_error f a e hf]
    simp
  · intro hall
    have ha := aggregate_all_fail sources a (fun f hf => hall f hf a)
    have hb := aggregate_all_fail sources b (fun f hf => hall f hf b)
    simp only [get_interaction_report, ha, hb]
    simp

/-- Witness for C4: a single always-failing source yields the all-empty
report as a normal value. -/
theorem aggregate_failure_isolation_witness :
    get_interaction_report [srcFail] "x" "y" =
      { drug_a := "x", drug_b := "y", direct := false, common := ∅,
        neighbors_a := ∅, neighbors_b := ∅ } :=
  (aggregate_failure_isolation [srcFail] "x" "y").2.2
    (by intro f hf d
        simp only [List.mem_singleton] at hf
        subst hf
        exact ⟨"boom", rfl⟩)

/-- C5 counterexample: no validation error exists in the code. With both
subject names empty, `get_interaction_report` still invokes the adapters
(the adapter result for the empty name flows into the report), and with
`max_tokens = 0` (satisfying `maxTokens ≤ 0`) `truncate_context` returns an
ordinary truncated dictionary instead of raising. -/
theorem no_validation_counterexample :
    (get_interaction_report [srcOkX] "" "").neighbors_a = {"x"} ∧
    truncate_context charTok [("PubChem Data", Value.scalar "abc")] 0 =
      [("PubChem Data", Value.scalar "")] := by decide

/-- C5 amended: neither function validates its inputs. The report builder
accepts empty subject names and still calls the sources on them — a source
succeeding on the empty name contributes its whole result set to the
report — and the assembler accepts `max_tokens = 0`, proceeding with
tokenization and the truncation loop as for any over-budget context. -/
theorem no_validation_amended (f : Source) (s : Finset String) (b : String)
    (hf : f "" = Except.ok s) (tk : Tokenizer) (context : Context)
    (h : 0 < total_tokens tk context) :
    s ⊆ (get_interaction_report [f] "" b).neighbors_a ∧
    truncate_context tk context 0 =
      trunc_loop tk context section_order 0 := by
  constructor
  · intro x hx
    simp [get_interaction_report, aggregate, query_source, hf, hx]
  · unfold truncate_context
    rw [if_neg (by omega)]

/-- Witness for C5 amended at a concrete succeeding source and a concrete
context with positive total. -/
theorem no_validation_amended_witness :
    {"x"} ⊆ (get_interaction_report [srcOkX] "" "b").neighbors_a ∧
    truncate_context charTok small_context 0 =
      trunc_loop charTok small_context section_order 0 :=
  no_validation_amended srcOkX {"x"} "b" rfl charTok small_context
    (by decide)

/-- C6 counterexample: on the spec's own scenario — sections labelled
Summary (500 tokens), Articles (800), Extra (300), budget 1000 — the code
returns the empty dictionary, not Summary plus a truncated Articles: the
over-budget loop only ever emits the four hard-coded labels, and none of
the scenario's labels is among them. -/
theorem scenario_counterexample :
    total_tokens charTok scenario_context = 1600 ∧
    truncate_context charTok scenario_context 1000 = [] := by decide

/-- C6 amended: with the scenario relabelled onto the labels the code
iterates — PubChem Data (500 tokens), Wikipedia Summary (800),
PubMed Articles (300), budget 1000 — the output contains PubChem Data in
full at 500 tokens and Wikipedia Summary truncated to exactly 500 tokens,
PubMed Articles is absent, and the output total is exactly 1000 tokens. -/
theorem scenario_amended :
    truncate_context charTok scenario_relabelled 1000 =
      [("PubChem Data", Value.scalar s500),
       ("Wikipedia Summary", Value.scalar s500)] ∧
    total_tokens charTok (truncate_context charTok scenario_relabelled 1000)
      = 1000 ∧
    "PubMed Articles" ∉ (truncate_context charTok scenario_relabelled
      1000).map Prod.fst := by decide

/-- C7: whenever the total token count is at most `max_tokens`,
`truncate_context` returns the context itself — every section with its
content unmodified, in the original priority order — and the sum of the
returned token counts equals the precomputed total. -/
theorem truncate_context_fits (tk : Tokenizer) (context : Context)
    (max_tokens : Nat) (h : total_tokens tk context ≤ max_tokens) :
    truncate_context tk context max_tokens = context ∧
    total_tokens tk (truncate_context tk context max_tokens) =
      total_tokens tk context := by
  unfold truncate_context
  rw [if_pos h]
  exact ⟨rfl, rfl⟩

/-- Witness for C7 at the character tokenizer, a concrete context and a
budget that fits. -/
theorem truncate_context_fits_witness :
    truncate_context charTok small_context 100 = small_context :=
  (truncate_context_fits charTok small_context 100 (by decide)).1

/-- C8: aggregation is order-independent: permuting the source list leaves
the whole interaction report — in particular each unioned neighbor set —
identical. -/
theorem aggregate_perm_invariant (s₁ s₂ : List Source) (h : s₁.Perm s₂)
    (a b : String) :
    get_interaction_report s₁ a b = get_interaction_report s₂ a b := by
  have hag : ∀ d, aggregate s₁ d = aggregate s₂ d := by
    intro d
    ext x
    simp only [mem_aggregate]
    exact exists_congr fun f => and_congr_left fun _ => h.mem_iff
  simp [get_interaction_report, hag]

/-- Witness for C8 at two concrete sources swapped. -/
theorem aggregate_perm_invariant_witness :
    get_interaction_report [srcOkX, srcFail] "p" "q" =
      get_interaction_report [srcFail, srcOkX] "p" "q" :=
  aggregate_perm_invariant [srcOkX, srcFail] [srcFail, srcOkX]
    (List.Perm.swap srcFail srcOkX []) "p" "q"

/-- C9: `truncate_text` is a no-op on text that already fits: when the
encoded token sequence has length at most the budget, the text is returned
byte-identical (for a lossless tokenizer, as cl100k_base is). -/
theorem truncate_text_noop (tk : Tokenizer) (h : tk.Lossless)
    (text : String) (max_tokens : Nat)
    (hfit : (tk.encode text).length ≤ max_tokens) :
    truncate_text tk text max_tokens = text := by
  simp only [truncate_text]
  rw [if_neg (by omega)]
  exact h text

/-- Witness for C9 at the character tokenizer on a fitting text. -/
theorem truncate_text_noop_witness :
    truncate_text charTok "abc" 5 = "abc" :=
  truncate_text_noop charTok charTok_lossless "abc" 5 (by decide)

/-- C10: whenever the total token count exceeds `max_tokens`, the
dictionary returned by `truncate_context` contains no key outside the
hard-coded `section_order` list; in particular the `"Drug Name"` section
`get_context` always builds is absent from a truncated result, even though
its tokens are part of the total that triggered truncation. -/
theorem truncated_keys_in_section_order (tk : Tokenizer) (context : Context)
    (max_tokens : Nat) (h : max_tokens < total_tokens tk context) :
    (∀ kv ∈ truncate_context tk context max_tokens,
      kv.1 ∈ section_order) ∧
    "Drug Name" ∉ (truncate_context tk context max_tokens).map Prod.fst := by
  unfold truncate_context
  rw [if_neg (by omega)]
  constructor
  · intro kv hkv
    exact trunc_loop_keys tk context section_order max_tokens kv hkv
  · intro hmem
    rw [List.mem_map] at hmem
    obtain ⟨kv, hkv, hfst⟩ := hmem
    have := trunc_loop_keys tk context section_order max_tokens kv hkv
    rw [hfst] at this
    simp [section_order] at this

/-- Witness for C10 at the character tokenizer and the concrete Drug Name
context with budget 5. -/
theorem truncated_keys_in_section_order_witness :
    "Drug Name" ∉ (truncate_context charTok drugname_context 5).map
      Prod.fst :=
  (truncated_keys_in_section_order charTok drugname_context 5 (by decide)).2

end ADR
